import Mathlib

/-!
# Versioned schema registry: embedding and verification

Shallow embedding of the Go packages

* `app/schemas/parcel-event/versions/v1` and `.../v2` (`CreateSchema`),
* `app` (`SCHEMAS`, `InitSchemas`),
* `app/resolvers` (`GetParcelSchemaResolver`).

Go maps are finite functions from keys to optional values, the package-level
variable `SCHEMAS` is a field of an explicit process state, a nullable pointer
`*goavro.Codec` is an `Option`, and a call of `log.Fatalf` is an outcome of its
own: the formatted message is logged and the process exits, so the statements
after it are never run.  The Avro compiler `goavro.NewCodec` is an external
library and is a parameter of the embedding.
-/

set_option maxRecDepth 100000
set_option linter.dupNamespace false

namespace SchemaRegistry

/-! ## Go values -/

/-- A Go `error` value, observed through the text of its `Error()` method,
which is what the `%v` verb prints. -/
structure GoError where
  text : String
  deriving DecidableEq, Repr

/-- A Go `map[string]V`: each key is absent or bound to one value. -/
@[ext]
structure GoMap (V : Type) where
  get? : String → Option V

namespace GoMap

variable {V : Type}

/-- The map with no key: `make(map[string]V)`, and what a nil map reads as. -/
def make : GoMap V := ⟨fun _ => none⟩

/-- The comma-ok read `v, ok := m[k]`: the zero value and `false` when `k` is
absent.  A read never panics, on a nil map either. -/
def lookup [Inhabited V] (m : GoMap V) (k : String) : V × Bool :=
  match m.get? k with
  | some v => (v, true)
  | none => (default, false)

/-- The plain read `m[k]`. -/
def index [Inhabited V] (m : GoMap V) (k : String) : V :=
  (m.lookup k).1

/-- The assignment `m[k] = v`. -/
def assign (m : GoMap V) (k : String) (v : V) : GoMap V :=
  ⟨fun j => if j = k then some v else m.get? j⟩

/-- The zero value of a map type is the nil map, which reads as the empty map. -/
instance : Inhabited (GoMap V) := ⟨make⟩

end GoMap

/-- Modelled from the spec: the package `app/schemas/utils` is not among the
sources.  `utils.Schema` is the version entry of the spec, used by the sources
as a struct with a numeric field `Version` and a field `Schema` holding the
`*goavro.Codec` (`none` is the nil pointer). -/
structure Schema (Codec : Type) where
  Version : Int
  Schema : Option Codec
  deriving DecidableEq, Repr

/-- The zero value `utils.Schema{}`. -/
instance {Codec : Type} : Inhabited (Schema Codec) := ⟨⟨0, none⟩⟩

/-- Modelled from the spec: `utils.AvailableSchemas` of the missing package
`app/schemas/utils`, the registry of the spec: entity name to version label to
version entry, used by the sources as `map[string]map[string]utils.Schema`. -/
abbrev AvailableSchemas (Codec : Type) := GoMap (GoMap (Schema Codec))

/-- The external compiler `goavro.NewCodec`: from a schema definition to the
pair `(codec, err)` of a Go call. -/
abbrev NewCodecFn (Codec : Type) := String → Option Codec × Option GoError

/-- How a call ends: it returns a value to its caller, or it reaches
`log.Fatalf`, which logs the formatted message and exits the process. -/
inductive Outcome (α : Type) where
  | returned (value : α)
  | fatal (message : String)
  deriving DecidableEq, Repr

namespace Outcome

variable {α : Type}

/-- The call gave control back to its caller. -/
def isReturned : Outcome α → Bool
  | returned _ => true
  | fatal _ => false

/-- The call terminated the process. -/
def isFatal : Outcome α → Bool
  | returned _ => false
  | fatal _ => true

/-- The value handed to the caller, if any. -/
def value? : Outcome α → Option α
  | returned a => some a
  | fatal _ => none

end Outcome

/-- The state of the process: the package-level map `SCHEMAS` and the schema
definitions handed to `goavro.NewCodec` so far, oldest first. -/
structure Process (Codec : Type) where
  SCHEMAS : AvailableSchemas Codec
  compiled : List String

/-- The state at program start: `var SCHEMAS = make(utils.AvailableSchemas)`. -/
def Process.start {Codec : Type} : Process Codec :=
  { SCHEMAS := GoMap.make, compiled := [] }

/-- One call `goavro.NewCodec(definition)`, recorded in the process state. -/
def callNewCodec {Codec : Type} (newCodec : NewCodecFn Codec) (definition : String)
    (p : Process Codec) : (Option Codec × Option GoError) × Process Codec :=
  (newCodec definition, { p with compiled := p.compiled ++ [definition] })

/-! ## Package `v1` -/

/-- The raw string literal `schemaString` of `v1.CreateSchema`. -/
def v1.schemaString : String :=
  "\x7b\n\t\t\"type\": \"record\",\n\t\t\"name\": \"ParcelEventV1\",\n\t\t\"fields\": [\n\t\t\t\x7b\"name\": \"ID\", \"type\": \"string\"\x7d,\n\t\t\t\x7b\"name\": \"ParcelNumber\", \"type\": \"string\"\x7d,\n\t\t\t\x7b\"name\": \"CreatedAt\", \"type\": \"string\"\x7d,\n\t\t\t\x7b\"name\": \"UpdatedAt\", \"type\": \"string\"\x7d\n\t\t]\n\t\x7d"

/-- `v1.CreateSchema`: compile the v1 definition; on an error the zero entry
and the error, otherwise the entry with `Version: 1`. -/
def v1.CreateSchema {Codec : Type} (newCodec : NewCodecFn Codec) (p : Process Codec) :
    (Schema Codec × Option GoError) × Process Codec :=
  let r := callNewCodec newCodec v1.schemaString p
  match r.1.2 with
  | some err => ((default, some err), r.2)
  | none => (({ Version := 1, Schema := r.1.1 }, none), r.2)

/-! ## Package `v2` -/

/-- The raw string literal `schemaString` of `v2.CreateSchema`. -/
def v2.schemaString : String :=
  "\x7b\n\t\t\"type\": \"record\",\n\t\t\"name\": \"ParcelEventV2\",\n\t\t\"fields\": [\n\t\t\t\x7b\"name\": \"ID\", \"type\": \"string\"\x7d,\n\t\t\t\x7b\"name\": \"ParcelNumber\", \"type\": \"string\"\x7d,\n\t\t\t\x7b\"name\": \"CreatedAt\", \"type\": \"string\"\x7d,\n\t\t\t\x7b\"name\": \"UpdatedAt\", \"type\": \"string\"\x7d,\n\t\t\t\x7b\"name\": \"Weight\", \"type\": \"double\"\x7d\n\t\t]\n\t\x7d"

/-- `v2.CreateSchema`: compile the v2 definition; on an error the zero entry
and the error, otherwise the entry with `Version: 2`. -/
def v2.CreateSchema {Codec : Type} (newCodec : NewCodecFn Codec) (p : Process Codec) :
    (Schema Codec × Option GoError) × Process Codec :=
  let r := callNewCodec newCodec v2.schemaString p
  match r.1.2 with
  | some err => ((default, some err), r.2)
  | none => (({ Version := 2, Schema := r.1.1 }, none), r.2)

/-! ## Package `schemas` (`app/index.go`) -/

/-- The map literal `map[string]utils.Schema{"v1": schemaV1, "v2": schemaV2}`. -/
def parcelEventVersions {Codec : Type} (schemaV1 schemaV2 : Schema Codec) :
    GoMap (Schema Codec) :=
  (GoMap.make.assign "v1" schemaV1).assign "v2" schemaV2

/-- `InitSchemas`: create the v1 entry, then the v2 entry, each failure ending
in `log.Fatalf`; then `SCHEMAS["parcelEvent"]` is assigned the two-entry map
and `SCHEMAS` is returned. -/
def InitSchemas {Codec : Type} (newCodec : NewCodecFn Codec) (p : Process Codec) :
    Outcome (AvailableSchemas Codec) × Process Codec :=
  let r1 := v1.CreateSchema newCodec p
  match r1.1.2 with
  | some err => (.fatal ("Failed to create v1 schema: " ++ err.text ++ "\n"), r1.2)
  | none =>
    let r2 := v2.CreateSchema newCodec r1.2
    match r2.1.2 with
    | some err => (.fatal ("Failed to create v2 schema: " ++ err.text ++ "\n"), r2.2)
    | none =>
      let q : Process Codec :=
        { r2.2 with
          SCHEMAS := r2.2.SCHEMAS.assign "parcelEvent" (parcelEventVersions r1.1.1 r2.1.1) }
      (.returned q.SCHEMAS, q)

/-! ## Package `resolvers` -/

/-- `GetParcelSchemaResolver`: the comma-ok read
`SCHEMAS["parcelEvent"][version]`; `log.Fatalf` when the read finds nothing,
otherwise the entry's codec pointer. -/
def GetParcelSchemaResolver {Codec : Type} (version : String) (p : Process Codec) :
    Outcome (Option Codec) × Process Codec :=
  let r := (p.SCHEMAS.index "parcelEvent").lookup version
  if !r.2 then
    (.fatal ("Schema version " ++ version ++ " not found"), p)
  else
    (.returned r.1.Schema, p)

/-- A caller that makes resolver calls one after another, each on the state
the previous one left.  A call that ends in `log.Fatalf` exits the process:
its outcome is the last one and the calls after it are never made. -/
def resolveInOrder {Codec : Type} :
    List String → Process Codec → List (Outcome (Option Codec)) × Process Codec
  | [], p => ([], p)
  | version :: rest, p =>
    match GetParcelSchemaResolver version p with
    | (.returned codec, q) => (.returned codec :: (resolveInOrder rest q).1,
        (resolveInOrder rest q).2)
    | (.fatal message, q) => ([.fatal message], q)

/-! ## Reading an Avro record definition

What a schema definition declares is read off its JSON text: the text is cut
into tokens, the tokens are parsed into a JSON value, and the `fields` array
of a `record` is listed as (name, type) pairs.  The reader covers the JSON
used by schema definitions made of objects, arrays and strings without escape
sequences; any other text has no reading. -/

/-- JSON tokens: punctuation and string literals. -/
inductive Token where
  | lbrace | rbrace | lbrack | rbrack | colon | comma
  | str (s : String)
  deriving DecidableEq, Repr

/-- Cut a text into tokens.  The first argument is `some acc` while inside a
string literal, `acc` holding its characters read so far, last one first.
Character codes: 34 quote, 92 backslash, 123 and 125 braces, 91 and 93
brackets, 58 colon, 44 comma; 32, 9, 10, 13 white space. -/
def tokens : Option (List Char) → List Char → Option (List Token)
  | none, [] => some []
  | some _, [] => none
  | none, c :: cs =>
    if c.toNat = 34 then tokens (some []) cs
    else if c.toNat = 123 then (tokens none cs).map (Token.lbrace :: ·)
    else if c.toNat = 125 then (tokens none cs).map (Token.rbrace :: ·)
    else if c.toNat = 91 then (tokens none cs).map (Token.lbrack :: ·)
    else if c.toNat = 93 then (tokens none cs).map (Token.rbrack :: ·)
    else if c.toNat = 58 then (tokens none cs).map (Token.colon :: ·)
    else if c.toNat = 44 then (tokens none cs).map (Token.comma :: ·)
    else if c.toNat = 32 ∨ c.toNat = 9 ∨ c.toNat = 10 ∨ c.toNat = 13 then tokens none cs
    else none
  | some acc, c :: cs =>
    if c.toNat = 34 then (tokens none cs).map (Token.str (String.mk acc.reverse) :: ·)
    else if c.toNat = 92 then none
    else tokens (some (c :: acc)) cs

/-- JSON values built from strings, arrays and objects. -/
inductive Json where
  | str (s : String)
  | arr (items : List Json)
  | obj (members : List (String × Json))

mutual
/-- Parse one value off the front of the tokens; the number bounds the depth
of the recursion. -/
def parseValue : Nat → List Token → Option (Json × List Token)
  | 0, _ => none
  | _ + 1, .str s :: ts => some (.str s, ts)
  | _ + 1, .lbrack :: .rbrack :: ts => some (.arr [], ts)
  | n + 1, .lbrack :: ts => (parseItems n ts).map (fun r => (.arr r.1, r.2))
  | _ + 1, .lbrace :: .rbrace :: ts => some (.obj [], ts)
  | n + 1, .lbrace :: ts => (parseMembers n ts).map (fun r => (.obj r.1, r.2))
  | _ + 1, _ => none
/-- Parse the items of an array up to its closing bracket. -/
def parseItems : Nat → List Token → Option (List Json × List Token)
  | 0, _ => none
  | n + 1, ts =>
    match parseValue n ts with
    | some (v, .comma :: rest) => (parseItems n rest).map (fun r => (v :: r.1, r.2))
    | some (v, .rbrack :: rest) => some ([v], rest)
    | _ => none
/-- Parse the members of an object up to its closing brace. -/
def parseMembers : Nat → List Token → Option (List (String × Json) × List Token)
  | 0, _ => none
  | n + 1, .str k :: .colon :: ts =>
    match parseValue n ts with
    | some (v, .comma :: rest) => (parseMembers n rest).map (fun r => ((k, v) :: r.1, r.2))
    | some (v, .rbrace :: rest) => some ([(k, v)], rest)
    | _ => none
  | _ + 1, _ => none
end

/-- Parse a whole text as one JSON value. -/
def parseJson (s : String) : Option Json :=
  match tokens none s.data with
  | none => none
  | some ts =>
    match parseValue (ts.length + 1) ts with
    | some (v, []) => some v
    | _ => none

/-- The value of member `k` of an object. -/
def Json.member (k : String) : Json → Option Json
  | .obj ms => (ms.find? (fun m => m.1 = k)).map Prod.snd
  | _ => none

/-- The text of a JSON string. -/
def Json.string? : Json → Option String
  | .str s => some s
  | _ => none

/-- One entry of a `fields` array as (name, type). -/
def fieldOf (j : Json) : Option (String × String) :=
  match (j.member "name").bind Json.string?, (j.member "type").bind Json.string? with
  | some n, some t => some (n, t)
  | _, _ => none

/-- The fields declared by an Avro record definition, in order, each with its
type; `none` when the text is not a record definition of primitive fields. -/
def recordFields (s : String) : Option (List (String × String)) :=
  match parseJson s with
  | none => none
  | some j =>
    match (j.member "type").bind Json.string?, j.member "fields" with
    | some "record", some (.arr items) => items.mapM fieldOf
    | _, _ => none

/-! ## Sample compilers and states -/

/-- A compiler that accepts every definition; the codec is the length of the
definition, so different definitions of different length give different codecs. -/
def acceptAll : NewCodecFn Nat := fun s => (some s.length, none)

/-- A compiler that rejects every definition. -/
def rejectAll : NewCodecFn Nat := fun _ => (none, some ⟨"cannot compile"⟩)

/-- A compiler that rejects the v2 definition only. -/
def rejectV2 : NewCodecFn Nat := fun s =>
  if s = v2.schemaString then (none, some ⟨"bad v2"⟩) else (some s.length, none)

/-- A version set with the keys `v0`, `v1` and `v2`. -/
def sampleVersions : GoMap (Schema Nat) :=
  (parcelEventVersions ⟨1, some 10⟩ ⟨2, some 20⟩).assign "v0" ⟨0, some 5⟩

/-- A state whose registry holds three `parcelEvent` entries and another entity. -/
def sampleProcess : Process Nat :=
  { SCHEMAS := (GoMap.make.assign "shipmentEvent"
        (GoMap.make.assign "v9" ⟨9, some 90⟩)).assign "parcelEvent" sampleVersions,
    compiled := [] }

/-! ## Lemmas on the operations -/

section Lemmas

variable {Codec : Type}

theorem lookup_of_get?_some {V : Type} [Inhabited V] (m : GoMap V) (k : String) (v : V)
    (h : m.get? k = some v) : m.lookup k = (v, true) := by
  simp [GoMap.lookup, h]

theorem lookup_of_get?_none {V : Type} [Inhabited V] (m : GoMap V) (k : String)
    (h : m.get? k = none) : m.lookup k = (default, false) := by
  simp [GoMap.lookup, h]

theorem parcelEventVersions_get? (a b : Schema Codec) (k : String) :
    (parcelEventVersions a b).get? k =
      if k = "v2" then some b else if k = "v1" then some a else none := by
  simp [parcelEventVersions, GoMap.assign, GoMap.make]

theorem InitSchemas_v1_failed (newCodec : NewCodecFn Codec) (p : Process Codec) (e : GoError)
    (h1 : (newCodec v1.schemaString).2 = some e) :
    InitSchemas newCodec p =
      (.fatal ("Failed to create v1 schema: " ++ e.text ++ "\n"),
        { p with compiled := p.compiled ++ [v1.schemaString] }) := by
  simp [InitSchemas, v1.CreateSchema, callNewCodec, h1]

theorem InitSchemas_v2_failed (newCodec : NewCodecFn Codec) (p : Process Codec) (e : GoError)
    (h1 : (newCodec v1.schemaString).2 = none) (h2 : (newCodec v2.schemaString).2 = some e) :
    InitSchemas newCodec p =
      (.fatal ("Failed to create v2 schema: " ++ e.text ++ "\n"),
        { p with compiled := p.compiled ++ [v1.schemaString, v2.schemaString] }) := by
  simp [InitSchemas, v1.CreateSchema, v2.CreateSchema, callNewCodec, h1, h2]

theorem InitSchemas_succeeded (newCodec : NewCodecFn Codec) (p : Process Codec)
    (h1 : (newCodec v1.schemaString).2 = none) (h2 : (newCodec v2.schemaString).2 = none) :
    InitSchemas newCodec p =
      (.returned (p.SCHEMAS.assign "parcelEvent"
          (parcelEventVersions ⟨1, (newCodec v1.schemaString).1⟩
            ⟨2, (newCodec v2.schemaString).1⟩)),
        { SCHEMAS := p.SCHEMAS.assign "parcelEvent"
            (parcelEventVersions ⟨1, (newCodec v1.schemaString).1⟩
              ⟨2, (newCodec v2.schemaString).1⟩),
          compiled := p.compiled ++ [v1.schemaString, v2.schemaString] }) := by
  simp [InitSchemas, v1.CreateSchema, v2.CreateSchema, callNewCodec, h1, h2]

theorem compiled_of_returned (newCodec : NewCodecFn Codec) (p q : Process Codec)
    (r : AvailableSchemas Codec) (h : InitSchemas newCodec p = (.returned r, q)) :
    (newCodec v1.schemaString).2 = none ∧ (newCodec v2.schemaString).2 = none := by
  cases h1 : (newCodec v1.schemaString).2 with
  | some e => rw [InitSchemas_v1_failed newCodec p e h1] at h; simp at h
  | none =>
    cases h2 : (newCodec v2.schemaString).2 with
    | some e => rw [InitSchemas_v2_failed newCodec p e h1 h2] at h; simp at h
    | none => exact ⟨rfl, rfl⟩

theorem resolver_of_entry (version : String) (p : Process Codec)
    (versions : GoMap (Schema Codec)) (entry : Schema Codec)
    (hE : p.SCHEMAS.get? "parcelEvent" = some versions)
    (hV : versions.get? version = some entry) :
    GetParcelSchemaResolver version p = (.returned entry.Schema, p) := by
  simp [GetParcelSchemaResolver, GoMap.index, lookup_of_get?_some _ _ _ hE,
    lookup_of_get?_some _ _ _ hV]

theorem resolver_of_no_entity (version : String) (p : Process Codec)
    (hE : p.SCHEMAS.get? "parcelEvent" = none) :
    GetParcelSchemaResolver version p =
      (.fatal ("Schema version " ++ version ++ " not found"), p) := by
  simp [GetParcelSchemaResolver, GoMap.index, GoMap.lookup, hE, default, GoMap.make]

theorem resolver_of_no_version (version : String) (p : Process Codec)
    (versions : GoMap (Schema Codec))
    (hE : p.SCHEMAS.get? "parcelEvent" = some versions)
    (hV : versions.get? version = none) :
    GetParcelSchemaResolver version p =
      (.fatal ("Schema version " ++ version ++ " not found"), p) := by
  simp [GetParcelSchemaResolver, GoMap.index, lookup_of_get?_some _ _ _ hE,
    lookup_of_get?_none _ _ hV]

end Lemmas

/-! ## The resolver on a registry that has the entry -/

section Claims

variable {Codec : Type}

/-- C1: whenever the `parcelEvent` version set of the registry has an entry for
`version`, `GetParcelSchemaResolver version` returns to its caller, and what it
returns is the `Schema` field of that very entry; the process state is as
before. -/
theorem resolver_returns_stored_codec (version : String) (p : Process Codec)
    (versions : GoMap (Schema Codec)) (entry : Schema Codec)
    (hE : p.SCHEMAS.get? "parcelEvent" = some versions)
    (hV : versions.get? version = some entry) :
    GetParcelSchemaResolver version p = (.returned entry.Schema, p) :=
  resolver_of_entry version p versions entry hE hV

/-- Witness of C1: on the sample registry the entry under `v2` holds codec 20
and the resolver returns it, not codec 10 of `v1` and not the nil pointer. -/
theorem resolver_returns_stored_codec_witness :
    GetParcelSchemaResolver "v2" sampleProcess = (.returned (some 20), sampleProcess) :=
  resolver_returns_stored_codec "v2" sampleProcess sampleVersions ⟨2, some 20⟩ rfl
    (by decide)

/-! ## Unknown versions -/

/-- C2, as stated, fails: after a successful `InitSchemas` from the start state
the resolver at `v3` does not return to its caller; it ends in `log.Fatalf`,
which terminates the process. -/
theorem unknown_version_terminates_process :
    (InitSchemas acceptAll Process.start).1.isReturned = true ∧
    (GetParcelSchemaResolver "v3" (InitSchemas acceptAll Process.start).2).1
      = .fatal "Schema version v3 not found" ∧
    (GetParcelSchemaResolver "v3" (InitSchemas acceptAll Process.start).2).1.isFatal = true ∧
    (GetParcelSchemaResolver "v3" (InitSchemas acceptAll Process.start).2).1.isReturned
      = false := by
  have h := InitSchemas_succeeded acceptAll Process.start rfl rfl
  have hr := resolver_of_no_version "v3" (InitSchemas acceptAll Process.start).2
    (parcelEventVersions ⟨1, (acceptAll v1.schemaString).1⟩ ⟨2, (acceptAll v2.schemaString).1⟩)
    (by rw [h]; simp [GoMap.assign])
    (by rw [parcelEventVersions_get?]; decide)
  rw [hr]
  refine ⟨by rw [h]; rfl, ?_, rfl, rfl⟩
  have e : "Schema version " ++ "v3" ++ " not found" = "Schema version v3 not found" := by
    decide
  rw [e]

/-- C2, amended: after a successful `InitSchemas`, for every version string
other than `v1` and `v2` the resolver ends in `log.Fatalf` with the message
`Schema version <version> not found`: the process is terminated, no codec is
returned, and the registry is as it was. -/
theorem unknown_version_is_fatal (newCodec : NewCodecFn Codec) (p q : Process Codec)
    (r : AvailableSchemas Codec) (h : InitSchemas newCodec p = (.returned r, q))
    (version : String) (hv1 : version ≠ "v1") (hv2 : version ≠ "v2") :
    GetParcelSchemaResolver version q =
        (.fatal ("Schema version " ++ version ++ " not found"), q) ∧
      (GetParcelSchemaResolver version q).1.value? = none := by
  obtain ⟨h1, h2⟩ := compiled_of_returned newCodec p q r h
  rw [InitSchemas_succeeded newCodec p h1 h2] at h
  have hq : q.SCHEMAS.get? "parcelEvent" = some
      (parcelEventVersions ⟨1, (newCodec v1.schemaString).1⟩
        ⟨2, (newCodec v2.schemaString).1⟩) := by
    have := (Prod.mk.inj h).2
    rw [← this]
    simp [GoMap.assign]
  have hr := resolver_of_no_version version q _ hq
    (by rw [parcelEventVersions_get?]; simp [hv1, hv2])
  exact ⟨hr, by rw [hr]; rfl⟩

/-- Witness of the amended C2: with the compiler that accepts everything, from
the start state, at the version strings `V1` and the empty string. -/
theorem unknown_version_is_fatal_witness :
    (GetParcelSchemaResolver "V1" (InitSchemas acceptAll Process.start).2 =
        (.fatal ("Schema version " ++ "V1" ++ " not found"),
          (InitSchemas acceptAll Process.start).2) ∧
      (GetParcelSchemaResolver "V1" (InitSchemas acceptAll Process.start).2).1.value? = none) ∧
    (GetParcelSchemaResolver "" (InitSchemas acceptAll Process.start).2 =
        (.fatal ("Schema version " ++ "" ++ " not found"),
          (InitSchemas acceptAll Process.start).2) ∧
      (GetParcelSchemaResolver "" (InitSchemas acceptAll Process.start).2).1.value? = none) :=
  ⟨unknown_version_is_fatal acceptAll Process.start (InitSchemas acceptAll Process.start).2
      (InitSchemas acceptAll Process.start).2.SCHEMAS rfl "V1" (by decide) (by decide),
    unknown_version_is_fatal acceptAll Process.start (InitSchemas acceptAll Process.start).2
      (InitSchemas acceptAll Process.start).2.SCHEMAS rfl "" (by decide) (by decide)⟩

/-! ## A failed build -/

/-- C3, as stated, fails: when the compiler rejects the definitions,
`InitSchemas` does not return an error, it does not return at all; the call
ends in `log.Fatalf` and nothing is handed to the caller. -/
theorem failed_build_does_not_return :
    (InitSchemas rejectAll Process.start).1
      = .fatal "Failed to create v1 schema: cannot compile\n" ∧
    (InitSchemas rejectAll Process.start).1.isReturned = false ∧
    (InitSchemas rejectAll Process.start).1.value? = none := by
  rw [InitSchemas_v1_failed rejectAll Process.start ⟨"cannot compile"⟩ rfl]
  exact ⟨congrArg Outcome.fatal (by decide), rfl, rfl⟩

/-- C3, amended: if compiling the v1 or the v2 definition fails, `InitSchemas`
ends in `log.Fatalf` (the process is terminated and no registry is returned),
and `SCHEMAS` is exactly as it was before the call: no `parcelEvent` entry was
added and no state with only one of the two versions exists. -/
theorem failed_build_leaves_registry (newCodec : NewCodecFn Codec) (p : Process Codec)
    (h : (newCodec v1.schemaString).2 ≠ none ∨ (newCodec v2.schemaString).2 ≠ none) :
    (InitSchemas newCodec p).1.isFatal = true ∧
    (InitSchemas newCodec p).1.value? = none ∧
    (InitSchemas newCodec p).2.SCHEMAS = p.SCHEMAS := by
  cases h1 : (newCodec v1.schemaString).2 with
  | some e =>
    rw [InitSchemas_v1_failed newCodec p e h1]
    exact ⟨rfl, rfl, rfl⟩
  | none =>
    cases h2 : (newCodec v2.schemaString).2 with
    | some e =>
      rw [InitSchemas_v2_failed newCodec p e h1 h2]
      exact ⟨rfl, rfl, rfl⟩
    | none =>
      rcases h with h | h
      · exact absurd h1 h
      · exact absurd h2 h

/-- Witness of the amended C3: the compiler that rejects only the v2
definition, on the sample registry, whose earlier `parcelEvent` entries stay. -/
theorem failed_build_leaves_registry_witness :
    ((rejectV2 v1.schemaString).2 ≠ none ∨ (rejectV2 v2.schemaString).2 ≠ none) ∧
    (InitSchemas rejectV2 sampleProcess).1.isFatal = true ∧
    (InitSchemas rejectV2 sampleProcess).1.value? = none ∧
    (InitSchemas rejectV2 sampleProcess).2.SCHEMAS = sampleProcess.SCHEMAS :=
  ⟨Or.inr (by decide),
    failed_build_leaves_registry rejectV2 sampleProcess (Or.inr (by decide))⟩

/-! ## The two record shapes -/

theorem recordFields_v1 :
    recordFields v1.schemaString = some [("ID", "string"), ("ParcelNumber", "string"),
      ("CreatedAt", "string"), ("UpdatedAt", "string")] := by
  decide

theorem recordFields_v2 :
    recordFields v2.schemaString = some [("ID", "string"), ("ParcelNumber", "string"),
      ("CreatedAt", "string"), ("UpdatedAt", "string"), ("Weight", "double")] := by
  decide

theorem registry_of_returned (newCodec : NewCodecFn Codec) (p q : Process Codec)
    (r : AvailableSchemas Codec) (h : InitSchemas newCodec p = (.returned r, q)) :
    r = p.SCHEMAS.assign "parcelEvent"
        (parcelEventVersions ⟨1, (newCodec v1.schemaString).1⟩
          ⟨2, (newCodec v2.schemaString).1⟩) ∧
    q = { SCHEMAS := r, compiled := p.compiled ++ [v1.schemaString, v2.schemaString] } := by
  obtain ⟨h1, h2⟩ := compiled_of_returned newCodec p q r h
  rw [InitSchemas_succeeded newCodec p h1 h2] at h
  have hr : _ = r := Outcome.returned.inj (Prod.mk.inj h).1
  have hq := (Prod.mk.inj h).2
  subst hr
  exact ⟨rfl, hq.symm⟩

/-- C4: after a successful `InitSchemas`, the resolver at `v1` returns the
codec the compiler gave for the v1 definition, which declares exactly the four
string fields ID, ParcelNumber, CreatedAt, UpdatedAt; at `v2` it returns the
codec the compiler gave for the v2 definition, which declares exactly five
fields: those four, in the same order and of the same types, then Weight of
type double. -/
theorem resolves_each_version_to_its_record (newCodec : NewCodecFn Codec)
    (p q : Process Codec) (r : AvailableSchemas Codec)
    (h : InitSchemas newCodec p = (.returned r, q)) :
    GetParcelSchemaResolver "v1" q = (.returned (newCodec v1.schemaString).1, q) ∧
    recordFields v1.schemaString = some [("ID", "string"), ("ParcelNumber", "string"),
      ("CreatedAt", "string"), ("UpdatedAt", "string")] ∧
    (recordFields v1.schemaString).map List.length = some 4 ∧
    GetParcelSchemaResolver "v2" q = (.returned (newCodec v2.schemaString).1, q) ∧
    recordFields v2.schemaString =
      (recordFields v1.schemaString).map (fun fs => fs ++ [("Weight", "double")]) ∧
    (recordFields v2.schemaString).map List.length = some 5 := by
  obtain ⟨hr, hq⟩ := registry_of_returned newCodec p q r h
  have hE : q.SCHEMAS.get? "parcelEvent" = some
      (parcelEventVersions ⟨1, (newCodec v1.schemaString).1⟩
        ⟨2, (newCodec v2.schemaString).1⟩) := by
    rw [hq, hr]; simp [GoMap.assign]
  refine ⟨?_, recordFields_v1, ?_, ?_, ?_, ?_⟩
  · exact resolver_of_entry "v1" q _ ⟨1, (newCodec v1.schemaString).1⟩ hE
      (by rw [parcelEventVersions_get?]; simp)
  · rw [recordFields_v1]; rfl
  · exact resolver_of_entry "v2" q _ ⟨2, (newCodec v2.schemaString).1⟩ hE
      (by rw [parcelEventVersions_get?]; simp)
  · rw [recordFields_v1, recordFields_v2]; rfl
  · rw [recordFields_v2]; rfl

/-- Witness of C4: the compiler that accepts everything gives the v1
definition the codec 240 and the v2 definition the codec 281, and these are
what the resolver returns after `InitSchemas` from the start state. -/
theorem resolves_each_version_to_its_record_witness :
    GetParcelSchemaResolver "v1" (InitSchemas acceptAll Process.start).2
      = (.returned (some 240), (InitSchemas acceptAll Process.start).2) ∧
    GetParcelSchemaResolver "v2" (InitSchemas acceptAll Process.start).2
      = (.returned (some 281), (InitSchemas acceptAll Process.start).2) :=
  have w := resolves_each_version_to_its_record acceptAll Process.start
    (InitSchemas acceptAll Process.start).2 (InitSchemas acceptAll Process.start).2.SCHEMAS rfl
  ⟨w.1, w.2.2.2.1⟩

/-! ## What a failed build reports -/

/-- C5: a failing `InitSchemas` reports the version that failed and the
compiler's error, and stops at the first failure.  If the v1 definition fails
with error `e`, the message is `Failed to create v1 schema: ` followed by the
text of `e`, only the v1 definition was handed to the compiler, and any
compiler that fails in the same way on v1 gives the same result whatever it
does on v2.  If v1 compiles and v2 fails with `e`, the message is
`Failed to create v2 schema: ` followed by the text of `e`. -/
theorem build_failure_reports_first_failing_version (newCodec : NewCodecFn Codec)
    (p : Process Codec) :
    (∀ e : GoError, (newCodec v1.schemaString).2 = some e →
      InitSchemas newCodec p =
        (.fatal ("Failed to create v1 schema: " ++ e.text ++ "\n"),
          { p with compiled := p.compiled ++ [v1.schemaString] }) ∧
      ∀ other : NewCodecFn Codec, (other v1.schemaString).2 = some e →
        InitSchemas other p = InitSchemas newCodec p) ∧
    (∀ e : GoError, (newCodec v1.schemaString).2 = none →
      (newCodec v2.schemaString).2 = some e →
      InitSchemas newCodec p =
        (.fatal ("Failed to create v2 schema: " ++ e.text ++ "\n"),
          { p with compiled := p.compiled ++ [v1.schemaString, v2.schemaString] })) := by
  refine ⟨fun e h1 => ⟨InitSchemas_v1_failed newCodec p e h1, fun other ho => ?_⟩,
    fun e h1 h2 => InitSchemas_v2_failed newCodec p e h1 h2⟩
  rw [InitSchemas_v1_failed newCodec p e h1, InitSchemas_v1_failed other p e ho]

/-- Witness of C5: the compiler that rejects everything fails at v1, and the
compiler that rejects only v2 fails at v2. -/
theorem build_failure_reports_first_failing_version_witness :
    InitSchemas rejectAll sampleProcess =
      (.fatal ("Failed to create v1 schema: " ++ "cannot compile" ++ "\n"),
        { sampleProcess with compiled := [v1.schemaString] }) ∧
    InitSchemas rejectV2 sampleProcess =
      (.fatal ("Failed to create v2 schema: " ++ "bad v2" ++ "\n"),
        { sampleProcess with compiled := [v1.schemaString, v2.schemaString] }) :=
  ⟨((build_failure_reports_first_failing_version rejectAll sampleProcess).1
      ⟨"cannot compile"⟩ rfl).1,
    (build_failure_reports_first_failing_version rejectV2 sampleProcess).2
      ⟨"bad v2"⟩ rfl rfl⟩

/-! ## The resolver is a read of one registry entry -/

theorem resolver_of_index_some (version : String) (p : Process Codec) (entry : Schema Codec)
    (h : (p.SCHEMAS.index "parcelEvent").get? version = some entry) :
    GetParcelSchemaResolver version p = (.returned entry.Schema, p) := by
  simp [GetParcelSchemaResolver, GoMap.lookup, h]

theorem resolver_of_index_none (version : String) (p : Process Codec)
    (h : (p.SCHEMAS.index "parcelEvent").get? version = none) :
    GetParcelSchemaResolver version p =
      (.fatal ("Schema version " ++ version ++ " not found"), p) := by
  simp [GetParcelSchemaResolver, GoMap.lookup, h]

/-- C6, as stated, fails: on the sample registry a call at the missing version
`v9` does not return an error, it terminates the process, so of two calls at
`v9` only the first is made; and while two calls at `v1` both return codec 10,
a call at `v9` made between them leaves the second one without a result. -/
theorem resolver_miss_ends_later_calls :
    (GetParcelSchemaResolver "v9" sampleProcess).1.isReturned = false ∧
    (GetParcelSchemaResolver "v9" sampleProcess).1.isFatal = true ∧
    resolveInOrder ["v9", "v9"] sampleProcess
      = ([.fatal "Schema version v9 not found"], sampleProcess) ∧
    resolveInOrder ["v1", "v1"] sampleProcess
      = ([.returned (some 10), .returned (some 10)], sampleProcess) ∧
    resolveInOrder ["v1", "v9", "v1"] sampleProcess
      = ([.returned (some 10), .fatal "Schema version v9 not found"], sampleProcess) := by
  have m : "Schema version " ++ "v9" ++ " not found" = "Schema version v9 not found" := by
    decide
  have h9 := resolver_of_index_none "v9" sampleProcess (by decide)
  have h1 := resolver_of_index_some "v1" sampleProcess ⟨1, some 10⟩ (by decide)
  rw [m] at h9
  refine ⟨by rw [h9]; rfl, by rw [h9]; rfl, ?_, ?_, ?_⟩
  · simp only [resolveInOrder, h9]
  · simp only [resolveInOrder, h1]
  · simp only [resolveInOrder, h1, h9]

/-- C6, amended: `GetParcelSchemaResolver` reads one registry entry and writes
nothing.  A call leaves the state unchanged, and its outcome is the same on
any two states whose `parcelEvent` entry for the version is the same.  When
the entry exists, the call returns that entry's codec, and made before other
calls it changes nothing of what they give (so two calls at the version return
the same codec).  When the entry does not exist, no error is returned: the
call ends in `log.Fatalf` with a message fixed by the version, the process
exits, and the calls after it are never made. -/
theorem resolver_reads_one_entry (version : String) (p : Process Codec) :
    (GetParcelSchemaResolver version p).2 = p ∧
    (∀ p' : Process Codec,
      (p'.SCHEMAS.index "parcelEvent").get? version
        = (p.SCHEMAS.index "parcelEvent").get? version →
      (GetParcelSchemaResolver version p').1 = (GetParcelSchemaResolver version p).1) ∧
    (∀ entry : Schema Codec, (p.SCHEMAS.index "parcelEvent").get? version = some entry →
      (GetParcelSchemaResolver version p).1 = .returned entry.Schema ∧
      (∀ rest : List String,
        resolveInOrder (version :: rest) p
          = (.returned entry.Schema :: (resolveInOrder rest p).1, (resolveInOrder rest p).2)) ∧
      resolveInOrder [version, version] p
        = ([.returned entry.Schema, .returned entry.Schema], p)) ∧
    ((p.SCHEMAS.index "parcelEvent").get? version = none →
      (GetParcelSchemaResolver version p).1
        = .fatal ("Schema version " ++ version ++ " not found") ∧
      ∀ rest : List String,
        resolveInOrder (version :: rest) p
          = ([.fatal ("Schema version " ++ version ++ " not found")], p)) := by
  refine ⟨?_, fun p' hp => ?_, fun entry he => ?_, fun hn => ?_⟩
  · cases he : (p.SCHEMAS.index "parcelEvent").get? version with
    | some entry => rw [resolver_of_index_some version p entry he]
    | none => rw [resolver_of_index_none version p he]
  · cases he : (p.SCHEMAS.index "parcelEvent").get? version with
    | some entry =>
      rw [resolver_of_index_some version p entry he,
        resolver_of_index_some version p' entry (hp.trans he)]
    | none =>
      rw [resolver_of_index_none version p he,
        resolver_of_index_none version p' (hp.trans he)]
  · have hs := resolver_of_index_some version p entry he
    refine ⟨by rw [hs], fun rest => ?_, ?_⟩
    · simp only [resolveInOrder, hs]
    · simp only [resolveInOrder, hs]
  · have hs := resolver_of_index_none version p hn
    refine ⟨by rw [hs], fun rest => ?_⟩
    simp only [resolveInOrder, hs]

/-- Witness of the amended C6: on the sample registry the entry under `v1`
holds codec 10, so a call at `v1` made before a call at `v2` changes nothing,
and there is no entry under `v9`, so a call at `v9` ends the sequence. -/
theorem resolver_reads_one_entry_witness :
    (sampleProcess.SCHEMAS.index "parcelEvent").get? "v1" = some ⟨1, some 10⟩ ∧
    resolveInOrder ["v1", "v2"] sampleProcess
      = (.returned (some 10) :: (resolveInOrder ["v2"] sampleProcess).1,
          (resolveInOrder ["v2"] sampleProcess).2) ∧
    (sampleProcess.SCHEMAS.index "parcelEvent").get? "v9" = none ∧
    resolveInOrder ["v9", "v1"] sampleProcess
      = ([.fatal ("Schema version " ++ "v9" ++ " not found")], sampleProcess) :=
  ⟨by decide,
    ((resolver_reads_one_entry "v1" sampleProcess).2.2.1 ⟨1, some 10⟩ (by decide)).2.1 ["v2"],
    by decide,
    ((resolver_reads_one_entry "v9" sampleProcess).2.2.2 (by decide)).2 ["v1"]⟩

/-! ## The registry after a successful build -/

/-- C7: when `InitSchemas` succeeds from the start state, with a compiler that
gives a non-nil codec whenever it gives no error, the returned registry has
`parcelEvent` as its only entity name, the version set of `parcelEvent` has
exactly the keys `v1` and `v2`, and the codec of each entry is the non-nil
codec the compiler returned for that version's definition. -/
theorem successful_build_registry_shape (newCodec : NewCodecFn Codec) (q : Process Codec)
    (r : AvailableSchemas Codec)
    (hc : ∀ s : String, (newCodec s).2 = none → (newCodec s).1 ≠ none)
    (h : InitSchemas newCodec Process.start = (.returned r, q)) :
    (∀ name : String, (r.get? name).isSome ↔ name = "parcelEvent") ∧
    ∃ versions : GoMap (Schema Codec), r.get? "parcelEvent" = some versions ∧
      (∀ k : String, (versions.get? k).isSome ↔ k = "v1" ∨ k = "v2") ∧
      (∃ c1 : Codec, (newCodec v1.schemaString).1 = some c1 ∧
        versions.get? "v1" = some ⟨1, some c1⟩) ∧
      (∃ c2 : Codec, (newCodec v2.schemaString).1 = some c2 ∧
        versions.get? "v2" = some ⟨2, some c2⟩) ∧
      ∀ (k : String) (e : Schema Codec), versions.get? k = some e → e.Schema ≠ none := by
  obtain ⟨h1, h2⟩ := compiled_of_returned newCodec Process.start q r h
  obtain ⟨hr, -⟩ := registry_of_returned newCodec Process.start q r h
  have n1 := hc _ h1
  have n2 := hc _ h2
  obtain ⟨c1, hc1⟩ := Option.ne_none_iff_exists'.mp n1
  obtain ⟨c2, hc2⟩ := Option.ne_none_iff_exists'.mp n2
  subst hr
  refine ⟨fun name => ?_,
    parcelEventVersions ⟨1, (newCodec v1.schemaString).1⟩ ⟨2, (newCodec v2.schemaString).1⟩,
    by simp [GoMap.assign], fun k => ?_, ⟨c1, hc1, ?_⟩, ⟨c2, hc2, ?_⟩, fun k e hk => ?_⟩
  · by_cases hn : name = "parcelEvent" <;> simp [GoMap.assign, Process.start, GoMap.make, hn]
  · rw [parcelEventVersions_get?]
    by_cases k2 : k = "v2"
    · simp [k2]
    · by_cases k1 : k = "v1" <;> simp [k1, k2]
  · rw [parcelEventVersions_get?, hc1]; simp
  · rw [parcelEventVersions_get?, hc2]; simp
  · rw [parcelEventVersions_get?] at hk
    by_cases k2 : k = "v2"
    · simp [k2] at hk
      rw [← hk]; exact n2
    · by_cases k1 : k = "v1"
      · simp [k1] at hk
        rw [← hk]; exact n1
      · simp [k1, k2] at hk

/-- Witness of C7: the compiler that accepts everything, from the start state. -/
theorem successful_build_registry_shape_witness :
    (∀ name : String,
      ((InitSchemas acceptAll Process.start).2.SCHEMAS.get? name).isSome
        ↔ name = "parcelEvent") ∧
    ∃ versions : GoMap (Schema Nat),
      (InitSchemas acceptAll Process.start).2.SCHEMAS.get? "parcelEvent" = some versions ∧
      (∀ k : String, (versions.get? k).isSome ↔ k = "v1" ∨ k = "v2") ∧
      (∃ c1 : Nat, (acceptAll v1.schemaString).1 = some c1 ∧
        versions.get? "v1" = some ⟨1, some c1⟩) ∧
      (∃ c2 : Nat, (acceptAll v2.schemaString).1 = some c2 ∧
        versions.get? "v2" = some ⟨2, some c2⟩) ∧
      ∀ (k : String) (e : Schema Nat), versions.get? k = some e → e.Schema ≠ none :=
  successful_build_registry_shape acceptAll (InitSchemas acceptAll Process.start).2
    (InitSchemas acceptAll Process.start).2.SCHEMAS
    (fun s _ => by simp [acceptAll]) rfl

/-! ## A registry without the entity -/

/-- C8, as stated, fails: on the start state, where `parcelEvent` is absent,
the resolver ends in `log.Fatalf` with the unknown-version message, which
names the version and not the entity, and this is the very outcome it has when
the entity is present and the version is not. -/
theorem missing_entity_fails_like_missing_version :
    (Process.start : Process Nat).SCHEMAS.get? "parcelEvent" = none ∧
    (GetParcelSchemaResolver "v7" (Process.start : Process Nat)).1
      = .fatal "Schema version v7 not found" ∧
    ((InitSchemas acceptAll Process.start).2.SCHEMAS.get? "parcelEvent").isSome = true ∧
    (GetParcelSchemaResolver "v7" (Process.start : Process Nat)).1
      = (GetParcelSchemaResolver "v7" (InitSchemas acceptAll Process.start).2).1 := by
  have h := InitSchemas_succeeded acceptAll Process.start rfl rfl
  have hr := resolver_of_no_version "v7" (InitSchemas acceptAll Process.start).2
    (parcelEventVersions ⟨1, (acceptAll v1.schemaString).1⟩ ⟨2, (acceptAll v2.schemaString).1⟩)
    (by rw [h]; simp [GoMap.assign])
    (by rw [parcelEventVersions_get?]; decide)
  have hs := resolver_of_no_entity "v7" (Process.start : Process Nat) rfl
  rw [hr, hs]
  exact ⟨rfl, congrArg Outcome.fatal (by decide), by rw [h]; rfl, rfl⟩

/-- C8, amended: when `parcelEvent` is absent from `SCHEMAS`, the resolver
ends, for every version string, in `log.Fatalf` with the message
`Schema version <version> not found`: the read of the missing entity does not
panic, no codec is returned, the state is as it was, and the outcome is the
same as on any registry that has the entity and lacks the version. -/
theorem missing_entity_is_fatal (version : String) (p : Process Codec)
    (hE : p.SCHEMAS.get? "parcelEvent" = none) :
    GetParcelSchemaResolver version p =
      (.fatal ("Schema version " ++ version ++ " not found"), p) ∧
    (GetParcelSchemaResolver version p).1.value? = none ∧
    ∀ (p' : Process Codec) (versions : GoMap (Schema Codec)),
      p'.SCHEMAS.get? "parcelEvent" = some versions → versions.get? version = none →
      (GetParcelSchemaResolver version p').1 = (GetParcelSchemaResolver version p).1 := by
  have hs := resolver_of_no_entity version p hE
  refine ⟨hs, by rw [hs]; rfl, fun p' versions hE' hV => ?_⟩
  rw [hs, resolver_of_no_version version p' versions hE' hV]

/-- Witness of the amended C8: the start state, before `InitSchemas` has run. -/
theorem missing_entity_is_fatal_witness :
    (Process.start : Process Nat).SCHEMAS.get? "parcelEvent" = none ∧
    GetParcelSchemaResolver "v1" (Process.start : Process Nat) =
      (.fatal ("Schema version " ++ "v1" ++ " not found"), Process.start) :=
  ⟨rfl, (missing_entity_is_fatal "v1" (Process.start : Process Nat) rfl).1⟩

/-! ## Frame and idempotence of the build -/

theorem assign_assign {V : Type} (m : GoMap V) (k : String) (a b : V) :
    (m.assign k a).assign k b = m.assign k b := by
  ext j : 2
  simp only [GoMap.assign]
  split <;> rfl

theorem parcelEventVersions_keys (a b : Schema Codec) (k : String) :
    ((parcelEventVersions a b).get? k).isSome ↔ k = "v1" ∨ k = "v2" := by
  rw [parcelEventVersions_get?]
  by_cases k2 : k = "v2"
  · simp [k2]
  · by_cases k1 : k = "v1" <;> simp [k1, k2]

/-- C9: with a compiler that accepts both definitions, from every starting
state, `InitSchemas` returns the map `SCHEMAS` of the resulting state, leaves
the version set of every entity name other than `parcelEvent` as it was, binds
`parcelEvent` to a version set whose keys are exactly `v1` and `v2` whatever
was bound before, and a second call returns the same registry and leaves
`SCHEMAS` equal to what the first call left. -/
theorem build_frame_and_idempotence (newCodec : NewCodecFn Codec) (p : Process Codec)
    (h1 : (newCodec v1.schemaString).2 = none) (h2 : (newCodec v2.schemaString).2 = none) :
    (InitSchemas newCodec p).1 = .returned (InitSchemas newCodec p).2.SCHEMAS ∧
    (∀ name : String, name ≠ "parcelEvent" →
      (InitSchemas newCodec p).2.SCHEMAS.get? name = p.SCHEMAS.get? name) ∧
    (∃ versions : GoMap (Schema Codec),
      (InitSchemas newCodec p).2.SCHEMAS.get? "parcelEvent" = some versions ∧
      ∀ k : String, (versions.get? k).isSome ↔ k = "v1" ∨ k = "v2") ∧
    (InitSchemas newCodec (InitSchemas newCodec p).2).1 = (InitSchemas newCodec p).1 ∧
    (InitSchemas newCodec (InitSchemas newCodec p).2).2.SCHEMAS
      = (InitSchemas newCodec p).2.SCHEMAS := by
  simp only [InitSchemas_succeeded newCodec _ h1 h2]
  refine ⟨trivial, fun name hn => by simp [GoMap.assign, hn],
    ⟨parcelEventVersions ⟨1, (newCodec v1.schemaString).1⟩ ⟨2, (newCodec v2.schemaString).1⟩,
      by simp [GoMap.assign], parcelEventVersions_keys _ _⟩, ?_, ?_⟩
  · rw [assign_assign]
  · rw [assign_assign]

/-- Witness of C9: the sample registry holds `shipmentEvent` and an earlier
`parcelEvent` version set with the extra key `v0`; the compiler accepts
everything. -/
theorem build_frame_and_idempotence_witness :
    (InitSchemas acceptAll sampleProcess).1
      = .returned (InitSchemas acceptAll sampleProcess).2.SCHEMAS ∧
    (∀ name : String, name ≠ "parcelEvent" →
      (InitSchemas acceptAll sampleProcess).2.SCHEMAS.get? name
        = sampleProcess.SCHEMAS.get? name) ∧
    (∃ versions : GoMap (Schema Nat),
      (InitSchemas acceptAll sampleProcess).2.SCHEMAS.get? "parcelEvent" = some versions ∧
      ∀ k : String, (versions.get? k).isSome ↔ k = "v1" ∨ k = "v2") ∧
    (InitSchemas acceptAll (InitSchemas acceptAll sampleProcess).2).1
      = (InitSchemas acceptAll sampleProcess).1 ∧
    (InitSchemas acceptAll (InitSchemas acceptAll sampleProcess).2).2.SCHEMAS
      = (InitSchemas acceptAll sampleProcess).2.SCHEMAS :=
  build_frame_and_idempotence acceptAll sampleProcess rfl rfl

/-! ## Version labels and version numbers -/

/-- C10: after a successful `InitSchemas`, the entry under the key `v1` is the
result of `v1.CreateSchema` and has `Version` 1, the entry under `v2` is the
result of `v2.CreateSchema` (run after v1) and has `Version` 2, and the two
keys are bound to different entries. -/
theorem version_label_agrees_with_entry (newCodec : NewCodecFn Codec) (p q : Process Codec)
    (r : AvailableSchemas Codec) (h : InitSchemas newCodec p = (.returned r, q)) :
    (r.index "parcelEvent").get? "v1" = some (v1.CreateSchema newCodec p).1.1 ∧
    (v1.CreateSchema newCodec p).1.1.Version = 1 ∧
    (r.index "parcelEvent").get? "v2"
      = some (v2.CreateSchema newCodec (v1.CreateSchema newCodec p).2).1.1 ∧
    (v2.CreateSchema newCodec (v1.CreateSchema newCodec p).2).1.1.Version = 2 ∧
    (r.index "parcelEvent").get? "v1" ≠ (r.index "parcelEvent").get? "v2" := by
  obtain ⟨h1, h2⟩ := compiled_of_returned newCodec p q r h
  obtain ⟨hr, -⟩ := registry_of_returned newCodec p q r h
  subst hr
  have hi : (GoMap.assign p.SCHEMAS "parcelEvent"
      (parcelEventVersions ⟨1, (newCodec v1.schemaString).1⟩
        ⟨2, (newCodec v2.schemaString).1⟩)).index "parcelEvent"
      = parcelEventVersions ⟨1, (newCodec v1.schemaString).1⟩
        ⟨2, (newCodec v2.schemaString).1⟩ := by
    simp [GoMap.index, GoMap.lookup, GoMap.assign]
  rw [hi]
  simp [parcelEventVersions_get?, v1.CreateSchema, v2.CreateSchema, callNewCodec, h1, h2]

/-- Witness of C10: the compiler that accepts everything, from the start
state. -/
theorem version_label_agrees_with_entry_witness :
    ((InitSchemas acceptAll Process.start).2.SCHEMAS.index "parcelEvent").get? "v1"
      = some ⟨1, some 240⟩ ∧
    ((InitSchemas acceptAll Process.start).2.SCHEMAS.index "parcelEvent").get? "v2"
      = some ⟨2, some 281⟩ :=
  have w := version_label_agrees_with_entry acceptAll Process.start
    (InitSchemas acceptAll Process.start).2 (InitSchemas acceptAll Process.start).2.SCHEMAS rfl
  ⟨w.1, w.2.2.1⟩

end Claims

end SchemaRegistry
